import Mathlib

/-!
# tasks-system: cache-aside handlers of `cmd/handlers.go`

A shallow embedding of the create handler and the three by-id handlers of
`src/cmd/handlers.go`, with the two clients they talk to (gorm over
Postgres, go-redis) and the JSON codec passed in as explicit interfaces.

* `Task`, `Model`                      : the entity (`handlers.go`, lines 18-24)
* `GormDB`, `RedisClient`, `JSONCodec` : the library calls the handlers make
* `postTaskHandler`, `getTaskByIDHandler`, `putTaskByIDHandler`,
  `deleteTaskByIDHandler`              : the handlers, statement by statement
* `pgStore`, `miniRedis`, `refJSON`    : reference instances of the libraries
  used to run the handlers on concrete requests

Timestamps are nanoseconds on the clock (`Nat`, `0` is the zero `time.Time`).
gorm stamps a struct with the nanosecond clock; the database keeps, and reads
back, microseconds.
-/

namespace TasksSystem

/-! ## Data model -/

/-- The embedded `gorm.Model`: primary key and lifecycle timestamps. -/
structure Model where
  ID : Nat
  CreatedAt : Nat
  UpdatedAt : Nat
  DeletedAt : Option Nat
deriving DecidableEq, Repr

/-- The entity `Task` of `handlers.go`: `gorm.Model` plus four columns. -/
structure Task extends Model where
  Title : String
  Assignee : String
  Finished : Bool
  Comment : String
deriving DecidableEq, Repr

/-- The zero value of `Task`, what `var task Task` declares. -/
def zeroTask : Task :=
  { ID := 0, CreatedAt := 0, UpdatedAt := 0, DeletedAt := none,
    Title := "", Assignee := "", Finished := false, Comment := "" }

/-- A decoded JSON request body: each key of `Task` either absent or carrying
a value. Keys are matched without regard to case by `encoding/json`, so a
body key `id` fills `ID`. An explicit `null` for `DeletedAt` is `some none`. -/
structure TaskPatch where
  ID : Option Nat
  CreatedAt : Option Nat
  UpdatedAt : Option Nat
  DeletedAt : Option (Option Nat)
  Title : Option String
  Assignee : Option String
  Finished : Option Bool
  Comment : Option String
deriving DecidableEq, Repr

/-- The empty JSON object. -/
def emptyPatch : TaskPatch :=
  { ID := none, CreatedAt := none, UpdatedAt := none, DeletedAt := none,
    Title := none, Assignee := none, Finished := none, Comment := none }

/-- Decoding a JSON object into an existing struct: keys that are present
overwrite the field, the others leave it as it was. -/
def applyPatch (p : TaskPatch) (t : Task) : Task :=
  { ID := p.ID.getD t.ID,
    CreatedAt := p.CreatedAt.getD t.CreatedAt,
    UpdatedAt := p.UpdatedAt.getD t.UpdatedAt,
    DeletedAt := p.DeletedAt.getD t.DeletedAt,
    Title := p.Title.getD t.Title,
    Assignee := p.Assignee.getD t.Assignee,
    Finished := p.Finished.getD t.Finished,
    Comment := p.Comment.getD t.Comment }

/-- The call `c.BindJSON(&task)`: `none` is a body that does not decode. -/
def BindJSON (body : Option TaskPatch) (t : Task) : Option Task :=
  body.map (fun p => applyPatch p t)

/-! ## Responses and the calls a handler issues -/

/-- What a handler writes as the response body. -/
inductive Body where
  | empty
  | task (t : Task)
  | error (s : String)
  | msg (s : String)
deriving DecidableEq, Repr

/-- Status code and body of the response. -/
structure Response where
  status : Nat
  body : Body
deriving DecidableEq, Repr

def StatusOK : Nat := 200
def StatusCreated : Nat := 201
def StatusBadRequest : Nat := 400
def StatusNotFound : Nat := 404
def StatusInternalServerError : Nat := 500

/-- One call to the record store or to the cache, in the order issued. The
flag of a store call says whether it returned without error. -/
inductive Call where
  | dbCreate (ok : Bool)
  | dbFirst (id : String) (ok : Bool)
  | dbSave (ok : Bool)
  | dbDelete (id : String) (ok : Bool)
  | cacheGet (key : String)
  | cacheSet (key : String) (value : String) (ttl : Nat)
  | cacheDel (key : String)
deriving DecidableEq, Repr

/-- A cache write: `Set` or `Del`. -/
def Call.isCacheWrite : Call → Bool
  | .cacheSet _ _ _ => true
  | .cacheDel _ => true
  | _ => false

/-! ## The library interfaces -/

/-- Errors of the record store: `gorm.ErrRecordNotFound` or anything else. -/
inductive DBError where
  | ErrRecordNotFound
  | other (text : String)
deriving DecidableEq, Repr

/-- The method `Error()` of a store error. -/
def DBError.Error : DBError → String
  | .ErrRecordNotFound => "record not found"
  | .other text => text

/-- Errors of the cache client: the miss signal `redis.Nil` or anything else. -/
inductive RedisError where
  | Nil
  | other (text : String)
deriving DecidableEq, Repr

deriving instance DecidableEq for Except

/-- The calls the handlers make on `gormDB`, over a store state `σ`. `First`
is a query and leaves the state alone; the writes return the new state. -/
structure GormDB (σ : Type) where
  First : σ → String → Except DBError Task
  Create : σ → Task → Except DBError Task × σ
  Save : σ → Task → Except DBError Task × σ
  Delete : σ → Task → String → Except DBError Task × σ

/-- The calls the handlers make on `redisClient`, over a cache state `κ`. -/
structure RedisClient (κ : Type) where
  Get : κ → String → Except RedisError String
  Set : κ → String → String → Nat → Option RedisError × κ
  Del : κ → String → Option RedisError × κ

/-- The two functions of `encoding/json` used on cache payloads. `Unmarshal`
decodes into a zero `Task`. -/
structure JSONCodec where
  Marshal : Task → Option String
  Unmarshal : String → Option Task

/-- The constant `time.Minute`, in nanoseconds. -/
def Minute : Nat := 60 * 1000000000

/-- What a handler leaves behind: the response, both states, and the calls it
issued in order. -/
structure Outcome (σ κ : Type) where
  resp : Response
  db : σ
  cache : κ
  calls : List Call

/-! ## The handlers -/

variable {σ κ : Type}

/-- The handler `postTaskHandler` (`handlers.go`, lines 39-70). -/
def postTaskHandler (gormDB : GormDB σ) (redisClient : RedisClient κ) (json : JSONCodec)
    (s : σ) (k : κ) (body : Option TaskPatch) : Outcome σ κ :=
  match BindJSON body zeroTask with
  | none => ⟨⟨StatusBadRequest, .empty⟩, s, k, []⟩
  | some newTask =>
    match gormDB.Create s newTask with
    | (.error e, s1) =>
      ⟨⟨StatusInternalServerError, .error e.Error⟩, s1, k, [.dbCreate false]⟩
    | (.ok newTask, s1) =>
      let cacheTTL := 5 * Minute
      let cacheKey := "task:" ++ Nat.repr newTask.ID
      match json.Marshal newTask with
      | none => ⟨⟨StatusCreated, .task newTask⟩, s1, k, [.dbCreate true]⟩
      | some taskJSON =>
        let k1 := (redisClient.Set k cacheKey taskJSON cacheTTL).2
        ⟨⟨StatusCreated, .task newTask⟩, s1, k1,
          [.dbCreate true, .cacheSet cacheKey taskJSON cacheTTL]⟩

/-- The handler `getTaskByIDHandler` (`handlers.go`, lines 72-125). -/
def getTaskByIDHandler (gormDB : GormDB σ) (redisClient : RedisClient κ) (json : JSONCodec)
    (s : σ) (k : κ) (taskID : String) : Outcome σ κ :=
  let cacheKey := "task:" ++ taskID
  match redisClient.Get k cacheKey with
  | .ok taskJSON =>
    match json.Unmarshal taskJSON with
    | none =>
      ⟨⟨StatusInternalServerError, .error "ошибка декодирования данных"⟩, s, k,
        [.cacheGet cacheKey]⟩
    | some task => ⟨⟨StatusOK, .task task⟩, s, k, [.cacheGet cacheKey]⟩
  | .error err =>
    if err = RedisError.Nil then
      match gormDB.First s taskID with
      | .error e =>
        ⟨⟨StatusInternalServerError, .error e.Error⟩, s, k,
          [.cacheGet cacheKey, .dbFirst taskID false]⟩
      | .ok task =>
        let cacheTTL := 5 * Minute
        let cacheKey1 := "task:" ++ Nat.repr task.ID
        match json.Marshal task with
        | none =>
          ⟨⟨StatusOK, .task task⟩, s, k, [.cacheGet cacheKey, .dbFirst taskID true]⟩
        | some taskJSON =>
          let k1 := (redisClient.Set k cacheKey1 taskJSON cacheTTL).2
          ⟨⟨StatusOK, .task task⟩, s, k1,
            [.cacheGet cacheKey, .dbFirst taskID true, .cacheSet cacheKey1 taskJSON cacheTTL]⟩
    else
      ⟨⟨StatusInternalServerError, .error "ошибка получения данных"⟩, s, k,
        [.cacheGet cacheKey]⟩

/-- The handler `putTaskByIDHandler` (`handlers.go`, lines 127-170). -/
def putTaskByIDHandler (gormDB : GormDB σ) (redisClient : RedisClient κ)
    (s : σ) (k : κ) (id : String) (body : Option TaskPatch) : Outcome σ κ :=
  if id = "" then ⟨⟨StatusBadRequest, .msg "ID is required"⟩, s, k, []⟩
  else
    match gormDB.First s id with
    | .error err =>
      if err = DBError.ErrRecordNotFound then
        ⟨⟨StatusNotFound, .msg "Task not found"⟩, s, k, [.dbFirst id false]⟩
      else
        ⟨⟨StatusInternalServerError, .error err.Error⟩, s, k, [.dbFirst id false]⟩
    | .ok task =>
      match BindJSON body task with
      | none =>
        ⟨⟨StatusBadRequest, .error "Invalid input"⟩, s, k, [.dbFirst id true]⟩
      | some task =>
        match gormDB.Save s task with
        | (.error err, s1) =>
          ⟨⟨StatusInternalServerError, .error err.Error⟩, s1, k,
            [.dbFirst id true, .dbSave false]⟩
        | (.ok task, s1) =>
          let cacheKey := "task:" ++ id
          let k1 := (redisClient.Del k cacheKey).2
          ⟨⟨StatusOK, .task task⟩, s1, k1,
            [.dbFirst id true, .dbSave true, .cacheDel cacheKey]⟩

/-- The handler `deleteTaskByIDHandler` (`handlers.go`, lines 172-199). -/
def deleteTaskByIDHandler (gormDB : GormDB σ) (redisClient : RedisClient κ)
    (s : σ) (k : κ) (id : String) : Outcome σ κ :=
  if id = "" then ⟨⟨StatusBadRequest, .msg "ID is required"⟩, s, k, []⟩
  else
    match gormDB.Delete s zeroTask id with
    | (.error e, s1) =>
      ⟨⟨StatusInternalServerError, .error e.Error⟩, s1, k, [.dbDelete id false]⟩
    | (.ok task, s1) =>
      let cacheKey := "task:" ++ id
      let k1 := (redisClient.Del k cacheKey).2
      ⟨⟨StatusOK, .task task⟩, s1, k1, [.dbDelete id true, .cacheDel cacheKey]⟩

/-! ## Reference record store: gorm over one Postgres table -/

/-- Reading a decimal numeral, digit by digit. -/
def atoiAux : List Char → Nat → Option Nat
  | [], acc => some acc
  | c :: cs, acc => if c.isDigit then atoiAux cs (10 * acc + (c.toNat - 48)) else none

/-- The primary key an id string denotes when it is a decimal numeral
(leading zeros allowed, as the database reads them). gorm hands any other
string to the database as a condition of its own; the reference store
answers those with a statement error, and what is stated about it below
concerns decimal ids. -/
def atoi (id : String) : Option Nat :=
  match id.data with
  | [] => none
  | c :: cs => atoiAux (c :: cs) 0

/-- The table `tasks`, the sequence behind its primary key, the clock, and
whether the connection is up. -/
structure Store where
  rows : List Task
  seq : Nat
  now : Nat
  up : Bool
deriving DecidableEq, Repr

/-- The row with primary key `n`, deleted or not. -/
def Store.row (s : Store) (n : Nat) : Option Task :=
  s.rows.find? (fun r => r.ID == n)

/-- The live row with primary key `n`: `deleted_at IS NULL`. -/
def Store.live (s : Store) (n : Nat) : Option Task :=
  s.rows.find? (fun r => r.ID == n && r.DeletedAt.isNone)

def connRefused : DBError := .other "connection refused"

/-- A timestamp as a `timestamptz` column keeps it: rounded to the nearest
microsecond (a half goes up here). -/
def toMicro (ns : Nat) : Nat := (ns + 500) / 1000 * 1000

/-- The row the table keeps for a task: the value written, its three
timestamps at microsecond precision. -/
def Task.asStored (t : Task) : Task :=
  { t with
    CreatedAt := toMicro t.CreatedAt,
    UpdatedAt := toMicro t.UpdatedAt,
    DeletedAt := t.DeletedAt.map toMicro }

/-- The query `SELECT * FROM tasks WHERE id = $1 AND deleted_at IS NULL`. -/
def Store.First (s : Store) (id : String) : Except DBError Task :=
  if s.up then
    match atoi id with
    | none => .error (.other "invalid statement")
    | some n =>
      match s.live n with
      | some r => .ok r
      | none => .error .ErrRecordNotFound
  else .error connRefused

/-- The statement `INSERT INTO tasks ... RETURNING id`: a zero primary key is drawn
from the sequence, a nonzero one is inserted as given; zero timestamps are
set to the clock. The struct handed back keeps the nanosecond stamps, the
table keeps the row as stored. -/
def Store.Create (s : Store) (t : Task) : Except DBError Task × Store :=
  if s.up then
    let t1 : Task := { t with
      CreatedAt := if t.CreatedAt = 0 then s.now else t.CreatedAt,
      UpdatedAt := if t.UpdatedAt = 0 then s.now else t.UpdatedAt }
    let n := if t.ID = 0 then s.seq + 1 else t.ID
    let seq1 := if t.ID = 0 then s.seq + 1 else s.seq
    if (s.row n).isSome then
      (.error (.other "duplicate key value violates unique constraint"),
        { s with seq := seq1 })
    else
      let t2 : Task := { t1 with ID := n }
      (.ok t2, { s with rows := s.rows ++ [t2.asStored], seq := seq1, now := s.now + 1 })
  else (.error connRefused, s)

/-- The call `Save`: with a zero primary key it is `Create`; otherwise it
updates every column of the live row with that key, and when no row was
affected it inserts the value, on a key conflict overwriting every column of
the row but `created_at`. The struct handed back keeps the nanosecond
stamps. -/
def Store.Save (s : Store) (t : Task) : Except DBError Task × Store :=
  if s.up then
    if t.ID = 0 then s.Create t
    else
      let t1 : Task := { t with UpdatedAt := s.now }
      if (s.live t.ID).isSome then
        (.ok t1, { s with
          rows := s.rows.map (fun r =>
            if r.ID == t.ID && r.DeletedAt.isNone then t1.asStored else r),
          now := s.now + 1 })
      else
        let t2 : Task := { t1 with CreatedAt := if t.CreatedAt = 0 then s.now else t.CreatedAt }
        if (s.row t.ID).isSome then
          (.ok t2, { s with
            rows := s.rows.map (fun r =>
              if r.ID == t.ID then { t2.asStored with CreatedAt := r.CreatedAt } else r),
            now := s.now + 1 })
        else
          (.ok t2, { s with rows := s.rows ++ [t2.asStored], now := s.now + 1 })
  else (.error connRefused, s)

/-- The soft delete `UPDATE tasks SET deleted_at = now WHERE id = $1 AND
deleted_at IS NULL`. Affecting no row is not an error. The destination
struct has its `DeletedAt` set. -/
def Store.Delete (s : Store) (dest : Task) (id : String) : Except DBError Task × Store :=
  if s.up then
    match atoi id with
    | none => (.error (.other "invalid statement"), s)
    | some n =>
      (.ok { dest with DeletedAt := some s.now }, { s with
        rows := s.rows.map (fun r =>
          if r.ID == n && r.DeletedAt.isNone then { r with DeletedAt := some (toMicro s.now) }
          else r),
        now := s.now + 1 })
  else (.error connRefused, s)

/-- The reference record store as a `GormDB`. -/
def pgStore : GormDB Store :=
  { First := Store.First, Create := Store.Create, Save := Store.Save, Delete := Store.Delete }

/-! ## Reference cache: one Redis keyspace -/

/-- Payload and time-to-live under each key. -/
abbrev Cache := String → Option (String × Nat)

/-- The keyspace with nothing in it. -/
def Cache.empty : Cache := fun _ => none

/-- Which commands fail to reach the server. -/
structure Faults where
  get : Bool
  set : Bool
  del : Bool
deriving DecidableEq, Repr

/-- Every command reaches the server. -/
def noFaults : Faults := { get := false, set := false, del := false }

def dialError : RedisError := .other "dial tcp: connection refused"

/-- The reference cache as a `RedisClient`: a command that does not reach the
server returns an error and changes nothing. -/
def miniRedis (f : Faults) : RedisClient Cache :=
  { Get := fun c key =>
      if f.get then .error dialError
      else match c key with
        | some (v, _) => .ok v
        | none => .error .Nil,
    Set := fun c key v ttl =>
      if f.set then (some dialError, c)
      else (none, fun q => if q = key then some (v, ttl) else c q),
    Del := fun c key =>
      if f.del then (some dialError, c)
      else (none, fun q => if q = key then none else c q) }

/-! ## Reference JSON codec -/

/-- The quotation mark. -/
def dquote : Char := Char.ofNat 34

/-- The backslash. -/
def bslash : Char := Char.ofNat 92

/-- Opening and closing brace. -/
def lbrace : Char := Char.ofNat 123

def rbrace : Char := Char.ofNat 125

/-- Escaping inside a JSON string: quotation mark and backslash. -/
def escapeChars : List Char → List Char
  | [] => []
  | c :: cs =>
    if c = dquote ∨ c = bslash then bslash :: c :: escapeChars cs else c :: escapeChars cs

def jsonString (s : String) : List Char := dquote :: escapeChars s.data ++ [dquote]

def jsonNat (n : Nat) : List Char := (Nat.repr n).data

def jsonBool (b : Bool) : List Char := if b then "true".data else "false".data

def jsonTime : Option Nat → List Char
  | none => "null".data
  | some n => jsonNat n

def jsonMember (key : String) (v : List Char) : List Char := jsonString key ++ ':' :: v

/-- The JSON object of a task, keys in field order: the four fields of
`gorm.Model` under their Go names, the others under their `json` tags. -/
def renderTask (t : Task) : String :=
  String.mk (lbrace ::
    (jsonMember "ID" (jsonNat t.ID) ++ ',' ::
     jsonMember "CreatedAt" (jsonNat t.CreatedAt) ++ ',' ::
     jsonMember "UpdatedAt" (jsonNat t.UpdatedAt) ++ ',' ::
     jsonMember "DeletedAt" (jsonTime t.DeletedAt) ++ ',' ::
     jsonMember "title" (jsonString t.Title) ++ ',' ::
     jsonMember "assignee" (jsonString t.Assignee) ++ ',' ::
     jsonMember "finished" (jsonBool t.Finished) ++ ',' ::
     jsonMember "comment" (jsonString t.Comment) ++ [rbrace]))

/-- A scalar JSON value. -/
inductive JVal where
  | num (n : Nat)
  | str (s : String)
  | bool (b : Bool)
  | null
deriving DecidableEq, Repr

/-- Reads a string body up to its closing quotation mark. -/
def readString : List Char → List Char → Option (String × List Char)
  | [], _ => none
  | [c], acc => if c = dquote then some (String.mk acc.reverse, []) else none
  | c :: d :: ds, acc =>
    if c = dquote then some (String.mk acc.reverse, d :: ds)
    else if c = bslash then readString ds (d :: acc)
    else readString (d :: ds) (c :: acc)

/-- Drops `w` from the front of the input when it is there. -/
def dropWord (w : List Char) (cs : List Char) : Option (List Char) :=
  if w.isPrefixOf cs then some (cs.drop w.length) else none

/-- Reads one scalar value. -/
def readValue (cs : List Char) : Option (JVal × List Char) :=
  match cs with
  | [] => none
  | c :: rest =>
    if c = dquote then (readString rest []).map (fun r => (JVal.str r.1, r.2))
    else if c.isDigit then
      (atoiAux (cs.takeWhile Char.isDigit) 0).map (fun n => (JVal.num n, cs.dropWhile Char.isDigit))
    else match dropWord "true".data cs with
      | some r => some (JVal.bool true, r)
      | none => match dropWord "false".data cs with
        | some r => some (JVal.bool false, r)
        | none => (dropWord "null".data cs).map (fun r => (JVal.null, r))

/-- Reads `"key":value` members separated by commas up to the closing brace. -/
def readMembers : Nat → List Char → List (String × JVal) → Option (List (String × JVal))
  | 0, _, _ => none
  | fuel + 1, cs, acc =>
    match cs with
    | [] => none
    | c :: rest =>
      if c = dquote then
        match readString rest [] with
        | none => none
        | some (key, r1) =>
          match r1 with
          | [] => none
          | colon :: r2 =>
            if colon = ':' then
              match readValue r2 with
              | none => none
              | some (v, r3) =>
                match r3 with
                | [] => none
                | sep :: r4 =>
                  if sep = ',' then readMembers fuel r4 (acc ++ [(key, v)])
                  else if sep = rbrace ∧ r4 = [] then some (acc ++ [(key, v)])
                  else none
            else none
      else none

/-- Reads a flat JSON object. -/
def readObject (s : String) : Option (List (String × JVal)) :=
  match s.data with
  | [] => none
  | c :: rest =>
    if c = lbrace then
      if rest = [rbrace] then some [] else readMembers rest.length rest []
    else none

/-- Key comparison as `encoding/json` does it: letter case is ignored. -/
def lowerKey (key : String) : String := String.mk (key.data.map Char.toLower)

/-- Stores one member into the patch; a value of the wrong type is an
error, an unknown key is skipped, `null` leaves a plain field alone. -/
def setMember (p : TaskPatch) (m : String × JVal) : Option TaskPatch :=
  let key := lowerKey m.1
  if key = "id" then
    match m.2 with
    | .num n => some { p with ID := some n }
    | .null => some p
    | _ => none
  else if key = "createdat" then
    match m.2 with
    | .num n => some { p with CreatedAt := some n }
    | .null => some p
    | _ => none
  else if key = "updatedat" then
    match m.2 with
    | .num n => some { p with UpdatedAt := some n }
    | .null => some p
    | _ => none
  else if key = "deletedat" then
    match m.2 with
    | .num n => some { p with DeletedAt := some (some n) }
    | .null => some { p with DeletedAt := some none }
    | _ => none
  else if key = "title" then
    match m.2 with
    | .str x => some { p with Title := some x }
    | .null => some p
    | _ => none
  else if key = "assignee" then
    match m.2 with
    | .str x => some { p with Assignee := some x }
    | .null => some p
    | _ => none
  else if key = "finished" then
    match m.2 with
    | .bool b => some { p with Finished := some b }
    | .null => some p
    | _ => none
  else if key = "comment" then
    match m.2 with
    | .str x => some { p with Comment := some x }
    | .null => some p
    | _ => none
  else some p

/-- A JSON object as a patch. -/
def decodePatch (s : String) : Option TaskPatch :=
  match readObject s with
  | none => none
  | some ms => ms.foldlM setMember emptyPatch

/-- The reference codec: `Marshal` never fails on it, `Unmarshal` decodes
onto the zero task. -/
def refJSON : JSONCodec :=
  { Marshal := fun t => some (renderTask t),
    Unmarshal := fun s => (decodePatch s).map (fun p => applyPatch p zeroTask) }

/-! ## Concrete requests -/

/-- Task 1 as created from the body with title "A" at 5000 ns on the clock. -/
def taskA : Task :=
  { ID := 1, CreatedAt := 5000, UpdatedAt := 5000, DeletedAt := none,
    Title := "A", Assignee := "", Finished := false, Comment := "" }

/-- Task 2, a second live row. -/
def taskB : Task :=
  { ID := 2, CreatedAt := 6000, UpdatedAt := 6000, DeletedAt := none,
    Title := "B", Assignee := "", Finished := false, Comment := "" }

/-- The store after creating task 1. -/
def storeA : Store := { rows := [taskA], seq := 1, now := 6000, up := true }

/-- The store after creating tasks 1 and 2. -/
def storeAB : Store := { rows := [taskA, taskB], seq := 2, now := 7000, up := true }

/-- The store after task 1 was created and then soft-deleted at 6000 ns. -/
def storeGone : Store :=
  { rows := [{ taskA with DeletedAt := some 6000 }], seq := 1, now := 7000, up := true }

/-- The store of `storeA` with the connection down. -/
def storeDown : Store := { rows := [taskA], seq := 1, now := 6000, up := false }

/-- The cache after task 1 was created: its JSON under `task:1`. -/
def cacheA : Cache := fun q => if q = "task:1" then some (renderTask taskA, 5 * Minute) else none

/-- A cache whose entry under `task:1` is not JSON. -/
def cacheBad : Cache := fun q => if q = "task:1" then some ("garbage", 5 * Minute) else none

/-- The server cannot be reached by `Get`. -/
def getDown : Faults := { get := true, set := false, del := false }

/-- The server cannot be reached by `Set`. -/
def setDown : Faults := { get := false, set := true, del := false }

/-- The server cannot be reached at all. -/
def allDown : Faults := { get := true, set := true, del := true }

/-- The body that sets `finished` to true and nothing else. -/
def finishPatch : TaskPatch := { emptyPatch with Finished := some true }

/-- The update of task 1 addressed as `01`, with task 1 cached under `task:1`. -/
def putLeadingZero : Outcome Store Cache :=
  putTaskByIDHandler pgStore (miniRedis noFaults) storeA cacheA "01" (some finishPatch)

/-- The first Delete of task 1. -/
def deleteOnce : Outcome Store Cache :=
  deleteTaskByIDHandler pgStore (miniRedis noFaults) storeA cacheA "1"

/-- The body that carries the id of task 2 and a new title. -/
def foreignIDPatch : TaskPatch := { emptyPatch with ID := some 2, Title := some "X" }

/-- Update of task 1 with a body that names id 2. -/
def putForeignID : Outcome Store Cache :=
  putTaskByIDHandler pgStore (miniRedis noFaults) storeAB Cache.empty "1" (some foreignIDPatch)

/-- Create with a body that names id 7, on the store whose sequence stands at 1. -/
def postWithID : Outcome Store Cache :=
  postTaskHandler pgStore (miniRedis noFaults) refJSON storeA Cache.empty
    (some { emptyPatch with ID := some 7, Title := some "C" })

/-- The Create of a task that arrives deleted, with `Set` unreachable. -/
def postDeleted : Outcome Store Cache :=
  postTaskHandler pgStore (miniRedis setDown) refJSON
    { rows := [], seq := 0, now := 5000, up := true } Cache.empty
    (some { emptyPatch with Title := some "A", DeletedAt := some (some 3000) })

/-- The Create of task 1 from the body with title "A" when the clock shows
5000123 ns, with `Set` unreachable. -/
def postOffMicro : Outcome Store Cache :=
  postTaskHandler pgStore (miniRedis setDown) refJSON
    { rows := [], seq := 0, now := 5000123, up := true } Cache.empty
    (some { emptyPatch with Title := some "A" })

/-! ## Facts about the reference instances -/

/-- A map that keeps the verdict of the search predicate on every row and
fixes the rows it accepts does not change what `find?` returns. -/
theorem find?_map_stable (p : Task → Bool) (f : Task → Task) (l : List Task)
    (hp : ∀ r, p (f r) = p r) (hf : ∀ r, p r = true → f r = r) :
    (l.map f).find? p = l.find? p := by
  induction l with
  | nil => rfl
  | cons a l ih =>
    simp only [List.map_cons, List.find?_cons, hp a]
    cases h : p a with
    | true => simp [hf a h]
    | false => simpa using ih

/-- After the soft delete of key `n` no live row has key `n`. -/
theorem live_after_delete (rows : List Task) (n now : Nat) :
    (rows.map (fun r =>
        if r.ID == n && r.DeletedAt.isNone then { r with DeletedAt := some now } else r)).find?
      (fun r => r.ID == n && r.DeletedAt.isNone) = none := by
  rw [List.find?_eq_none]
  intro x hx
  rw [List.mem_map] at hx
  obtain ⟨r, _, rfl⟩ := hx
  by_cases h : (r.ID == n && r.DeletedAt.isNone) = true
  · simp [h]
  · simp [h]

/-- A soft delete that matches no live row leaves the table as it is. -/
theorem delete_without_live_row (rows : List Task) (n now : Nat)
    (h : rows.find? (fun r => r.ID == n && r.DeletedAt.isNone) = none) :
    rows.map (fun r =>
        if r.ID == n && r.DeletedAt.isNone then { r with DeletedAt := some now } else r)
      = rows := by
  rw [List.find?_eq_none] at h
  conv_rhs => rw [← List.map_id rows]
  apply List.map_congr_left
  intro r hr
  have := h r hr
  simp only [id]
  rw [if_neg this]

/-- What `First` reporting not-found says about the reference store. -/
theorem first_not_found (s : Store) (id : String)
    (h : pgStore.First s id = .error DBError.ErrRecordNotFound) :
    s.up = true ∧ ∃ n, atoi id = some n ∧ s.live n = none := by
  simp only [pgStore, Store.First] at h
  split at h
  · rename_i hup
    refine ⟨hup, ?_⟩
    split at h
    · simp at h
    · rename_i n hn
      refine ⟨n, hn, ?_⟩
      split at h
      · simp at h
      · assumption
  · simp [connRefused] at h

/-- An id string that reads as a number is not empty. -/
theorem atoi_ne_empty (id : String) (n : Nat) (h : atoi id = some n) : id ≠ "" := by
  rintro rfl
  simp [atoi] at h

/-- What `First` returning a row says about the reference store. -/
theorem first_ok (s : Store) (id : String) (r : Task) (h : pgStore.First s id = .ok r) :
    s.up = true ∧ ∃ n, atoi id = some n ∧ s.live n = some r := by
  simp only [pgStore, Store.First] at h
  split at h
  · rename_i hup
    refine ⟨hup, ?_⟩
    split at h
    · simp at h
    · rename_i n hn
      refine ⟨n, hn, ?_⟩
      split at h
      · rename_i r1 hr
        cases h
        exact hr
      · simp at h
  · simp [connRefused] at h

/-- A live row found under key `n` is a row of the table, has key `n` and is
not deleted. -/
theorem live_some (s : Store) (n : Nat) (r : Task) (h : s.live n = some r) :
    r ∈ s.rows ∧ r.ID = n ∧ r.DeletedAt = none := by
  have h1 := List.find?_some h
  have h2 := List.mem_of_find?_eq_some h
  simp only [Bool.and_eq_true, beq_iff_eq, Option.isNone_iff_eq_none] at h1
  exact ⟨h2, h1.1, h1.2⟩

/-- Overwriting the live rows of key `i` by a row of key `i` leaves the row
found under any other key as it was. -/
theorem row_after_update (rows : List Task) (t1 : Task) (i m : Nat) (hi : t1.ID = i)
    (hm : m ≠ i) :
    (rows.map (fun r => if r.ID == i && r.DeletedAt.isNone then t1 else r)).find?
      (fun r => r.ID == m) = rows.find? (fun r => r.ID == m) := by
  apply find?_map_stable
  · intro r
    by_cases h : (r.ID == i && r.DeletedAt.isNone) = true
    · simp only [h, if_true]
      simp only [Bool.and_eq_true, beq_iff_eq] at h
      have h1 : (t1.ID == m) = false := by simp [hi]; omega
      have h2 : (r.ID == m) = false := by simp [h.1]; omega
      rw [h1, h2]
    · simp [h]
  · intro r hr
    have : r.ID = m := by simpa using hr
    have h : ¬ ((r.ID == i && r.DeletedAt.isNone) = true) := by simp [this, hm]
    simp [h]

/-- Appending a row of key `i` leaves the row found under any other key as
it was. -/
theorem row_after_insert (rows : List Task) (t2 : Task) (i m : Nat) (hi : t2.ID = i)
    (hm : m ≠ i) :
    (rows ++ [t2]).find? (fun r => r.ID == m) = rows.find? (fun r => r.ID == m) := by
  have h : (t2.ID == m) = false := by simp [hi]; omega
  simp [List.find?_append, List.find?_cons, h]

/-- The digit character of `d` is a digit and stands for `d`. -/
theorem digitChar_value (d : Nat) (h : d < 10) :
    (Nat.digitChar d).isDigit = true ∧ (Nat.digitChar d).toNat - 48 = d := by
  interval_cases d <;> decide

/-- Reading the digits that `toDigitsCore` puts in front of `ds` brings the
accumulator from 0 to `n`. -/
theorem atoiAux_toDigitsCore (fuel : Nat) :
    ∀ n ds, n < fuel → atoiAux (Nat.toDigitsCore 10 fuel n ds) 0 = atoiAux ds n := by
  induction fuel with
  | zero => intro n ds h; omega
  | succ fuel ih =>
    intro n ds h
    have hd := digitChar_value (n % 10) (Nat.mod_lt n (by decide))
    simp only [Nat.toDigitsCore]
    by_cases h0 : n / 10 = 0
    · simp only [h0, if_true, atoiAux, hd.1, hd.2]
      have : n % 10 = n := Nat.mod_eq_of_lt (by omega)
      simp [this]
    · simp only [if_neg h0]
      rw [ih (n / 10) _ (by omega)]
      simp only [atoiAux, hd.1, if_true, hd.2]
      congr 1
      omega

/-- The digit list of `toDigitsCore` is not empty once there is fuel. -/
theorem toDigitsCore_ne_nil (fuel : Nat) :
    ∀ n ds, (fuel ≠ 0 ∨ ds ≠ []) → Nat.toDigitsCore 10 fuel n ds ≠ [] := by
  induction fuel with
  | zero => intro n ds h; simpa [Nat.toDigitsCore] using h
  | succ fuel ih =>
    intro n ds _
    simp only [Nat.toDigitsCore]
    by_cases h0 : n / 10 = 0
    · simp [h0]
    · simp only [if_neg h0]
      exact ih _ _ (Or.inr (by simp))

/-- The decimal form of `n` is read back as `n`. -/
theorem atoi_repr (n : Nat) : atoi (Nat.repr n) = some n := by
  have h1 := atoiAux_toDigitsCore (n + 1) n [] (by omega)
  have h2 := toDigitsCore_ne_nil (n + 1) n [] (Or.inl (by omega))
  simp only [atoi, Nat.repr, Nat.toDigits, List.asString]
  cases hl : Nat.toDigitsCore 10 (n + 1) n [] with
  | nil => exact absurd hl h2
  | cons c cs =>
    rw [hl] at h1
    simpa [atoiAux] using h1

/-- What `Create` returning a row says about the reference store: the
connection stays up, the key was free, and the row is appended as stored. -/
theorem create_ok (s s1 : Store) (t E : Task) (h : pgStore.Create s t = (.ok E, s1)) :
    s1.up = true ∧ s.row E.ID = none ∧ s1.rows = s.rows ++ [E.asStored] := by
  simp only [pgStore, Store.Create] at h
  split at h
  · rename_i hup
    by_cases hrow : (s.row (if t.ID = 0 then s.seq + 1 else t.ID)).isSome = true
    · rw [if_pos hrow] at h
      simp at h
    · rw [if_neg hrow] at h
      simp only [Prod.mk.injEq, Except.ok.injEq] at h
      obtain ⟨hE, hs1⟩ := h
      subst hE
      subst hs1
      refine ⟨hup, ?_, rfl⟩
      simpa using hrow
  · simp [connRefused] at h

/-- The row just created is the live row under its key, unless it was
created deleted: the task as stored. -/
theorem live_after_create (s s1 : Store) (t E : Task) (h : pgStore.Create s t = (.ok E, s1))
    (hlive : E.DeletedAt = none) : s1.live E.ID = some E.asStored := by
  obtain ⟨_, hrow, hrows⟩ := create_ok s s1 t E h
  simp only [Store.row, List.find?_eq_none] at hrow
  have hnone : s.rows.find? (fun r => r.ID == E.ID && r.DeletedAt.isNone) = none := by
    rw [List.find?_eq_none]
    intro x hx
    have := hrow x hx
    simp only [Bool.and_eq_true, not_and]
    intro h1
    exact absurd h1 this
  simp [Store.live, hrows, List.find?_append, hnone, List.find?_cons, hlive, Task.asStored]

/-- A reachable `Get` on a key that holds a payload returns the payload. -/
theorem miniRedis_get_hit (g : Faults) (c : Cache) (key v : String) (ttl : Nat)
    (hg : g.get = false) (hc : c key = some (v, ttl)) : (miniRedis g).Get c key = .ok v := by
  simp [miniRedis, hg, hc]

/-- A Create that answered 201 with `E`: the body decoded, the store returned
`E`, and the outcome carries the new store and, when `Marshal` and `Set` went
through, the cache with the payload under the key of `E`. -/
theorem post_created (json : JSONCodec) (f : Faults) (s : Store) (k : Cache)
    (body : Option TaskPatch) (E : Task)
    (h : (postTaskHandler pgStore (miniRedis f) json s k body).resp
      = ⟨StatusCreated, .task E⟩) :
    ∃ p s1, body = some p ∧ pgStore.Create s (applyPatch p zeroTask) = (.ok E, s1) ∧
      (postTaskHandler pgStore (miniRedis f) json s k body).db = s1 ∧
      (∀ payload, json.Marshal E = some payload → f.set = false →
        (postTaskHandler pgStore (miniRedis f) json s k body).cache
          ("task:" ++ Nat.repr E.ID) = some (payload, 5 * Minute)) := by
  cases body with
  | none => simp [postTaskHandler, BindJSON, StatusBadRequest, StatusCreated] at h
  | some p =>
    rcases hc : pgStore.Create s (applyPatch p zeroTask) with ⟨r, s1⟩
    cases r with
    | error e =>
      simp [postTaskHandler, BindJSON, hc, StatusInternalServerError, StatusCreated] at h
    | ok t =>
      have ht : t = E := by
        simp only [postTaskHandler, BindJSON, Option.map, hc] at h
        split at h <;> simpa using h
      subst ht
      refine ⟨p, s1, rfl, hc, ?_, ?_⟩
      · simp only [postTaskHandler, BindJSON, Option.map, hc]
        split <;> rfl
      · intro payload hm hset
        simp only [postTaskHandler, BindJSON, Option.map, hc, hm]
        simp [miniRedis, hset]

/-! ## The reference codec reads back what it renders -/

/-- The string reader undoes the escaping: it returns the characters that
were escaped and stops after the closing quotation mark. -/
theorem readString_escapeChars (s : List Char) :
    ∀ acc rest, readString (escapeChars s ++ dquote :: rest) acc
      = some (String.mk (acc.reverse ++ s), rest) := by
  induction s with
  | nil =>
    intro acc rest
    cases rest <;> simp [escapeChars, readString]
  | cons c cs ih =>
    intro acc rest
    by_cases hc : c = dquote ∨ c = bslash
    · have hb : bslash ≠ dquote := by decide
      simp only [escapeChars, if_pos hc, List.cons_append]
      rw [readString, if_neg hb, if_pos rfl, ih]
      simp
    · obtain ⟨d, ds, hd⟩ : ∃ d ds, escapeChars cs ++ dquote :: rest = d :: ds := by
        cases h : escapeChars cs ++ dquote :: rest with
        | nil => simp at h
        | cons d ds => exact ⟨d, ds, rfl⟩
      have h1 : c ≠ dquote := fun h => hc (Or.inl h)
      have h2 : c ≠ bslash := fun h => hc (Or.inr h)
      simp only [escapeChars, if_neg hc, List.cons_append]
      rw [hd, readString, if_neg h1, if_neg h2, ← hd, ih]
      simp

/-- Every character `toDigitsCore` puts in front of digits is a digit. -/
theorem toDigitsCore_isDigit (fuel : Nat) :
    ∀ n ds, (∀ c ∈ ds, c.isDigit = true) →
      ∀ c ∈ Nat.toDigitsCore 10 fuel n ds, c.isDigit = true := by
  induction fuel with
  | zero => intro n ds h; simpa [Nat.toDigitsCore] using h
  | succ fuel ih =>
    intro n ds h
    have hd := (digitChar_value (n % 10) (Nat.mod_lt n (by decide))).1
    have hds : ∀ c ∈ Nat.digitChar (n % 10) :: ds, c.isDigit = true := by
      intro c hc
      rcases List.mem_cons.mp hc with rfl | hc
      · exact hd
      · exact h c hc
    simp only [Nat.toDigitsCore]
    by_cases h0 : n / 10 = 0
    · simpa [h0] using hds
    · simp only [if_neg h0]
      exact ih _ _ hds

/-- The value reader reads a rendered number back, up to a character that is
not a digit. -/
theorem readValue_jsonNat (n : Nat) (sep : Char) (rest : List Char)
    (hsep : sep.isDigit = false) :
    readValue (jsonNat n ++ sep :: rest) = some (JVal.num n, sep :: rest) := by
  have hall : ∀ c ∈ jsonNat n, c.isDigit = true := by
    simpa [jsonNat, Nat.repr, Nat.toDigits, List.asString] using
      toDigitsCore_isDigit (n + 1) n [] (by simp)
  have hval : atoiAux (jsonNat n) 0 = some n := by
    simpa [jsonNat, Nat.repr, Nat.toDigits, List.asString, atoiAux] using
      atoiAux_toDigitsCore (n + 1) n [] (by omega)
  have hne : jsonNat n ≠ [] := by
    simpa [jsonNat, Nat.repr, Nat.toDigits, List.asString] using
      toDigitsCore_ne_nil (n + 1) n [] (Or.inl (by omega))
  have htake : (jsonNat n ++ sep :: rest).takeWhile Char.isDigit = jsonNat n := by
    rw [List.takeWhile_append_of_pos hall]
    simp [hsep]
  have hdrop : (jsonNat n ++ sep :: rest).dropWhile Char.isDigit = sep :: rest := by
    rw [List.dropWhile_append_of_pos hall]
    simp [hsep]
  cases hj : jsonNat n with
  | nil => exact absurd hj hne
  | cons c cs =>
    have hc : c.isDigit = true := hall c (by simp [hj])
    have hq : c ≠ dquote := by
      rintro rfl
      exact absurd hc (by decide)
    rw [hj] at htake hdrop hval
    simp only [List.cons_append] at htake hdrop ⊢
    simp only [readValue, if_neg hq, hc, if_true, htake, hdrop, hval, Option.map]

/-- The value reader reads a rendered string back. -/
theorem readValue_jsonString (s : String) (rest : List Char) :
    readValue (jsonString s ++ rest) = some (JVal.str s, rest) := by
  simp [jsonString, readValue, readString_escapeChars]

/-- The value reader reads a rendered boolean back. -/
theorem readValue_jsonBool (b : Bool) (rest : List Char) :
    readValue (jsonBool b ++ rest) = some (JVal.bool b, rest) := by
  cases b <;> simp [jsonBool, readValue, dropWord, dquote]

/-- The value reader reads a rendered timestamp back: `null` when there is
none, the number otherwise. -/
theorem readValue_jsonTime (d : Option Nat) (sep : Char) (rest : List Char)
    (hsep : sep.isDigit = false) :
    readValue (jsonTime d ++ sep :: rest)
      = some ((match d with | none => JVal.null | some n => JVal.num n), sep :: rest) := by
  cases d with
  | none => simp [jsonTime, readValue, dropWord, dquote]
  | some n => simpa [jsonTime] using readValue_jsonNat n sep rest hsep

/-- One member followed by a comma: the member reader records it and goes on
with the rest. -/
theorem readMembers_more (fuel : Nat) (key : String) (rv : List Char) (v : JVal)
    (rest : List Char) (acc : List (String × JVal))
    (hv : readValue (rv ++ ',' :: rest) = some (v, ',' :: rest)) :
    readMembers (fuel + 1) (jsonMember key rv ++ ',' :: rest) acc
      = readMembers fuel rest (acc ++ [(key, v)]) := by
  simp [jsonMember, jsonString, readMembers, readString_escapeChars, hv]

/-- The last member, followed by the closing brace: the member reader
records it and returns. -/
theorem readMembers_last (fuel : Nat) (key : String) (rv : List Char) (v : JVal)
    (acc : List (String × JVal))
    (hv : readValue (rv ++ [rbrace]) = some (v, [rbrace])) :
    readMembers (fuel + 1) (jsonMember key rv ++ [rbrace]) acc = some (acc ++ [(key, v)]) := by
  have hr : rbrace ≠ ',' := by decide
  simp [jsonMember, jsonString, readMembers, readString_escapeChars, hv, hr]

/-- The object reader reads a rendered task back as its eight members. -/
theorem readObject_renderTask (t : Task) :
    readObject (renderTask t) = some
      [("ID", JVal.num t.ID), ("CreatedAt", JVal.num t.CreatedAt),
       ("UpdatedAt", JVal.num t.UpdatedAt),
       ("DeletedAt", (match t.DeletedAt with | none => JVal.null | some n => JVal.num n)),
       ("title", JVal.str t.Title), ("assignee", JVal.str t.Assignee),
       ("finished", JVal.bool t.Finished), ("comment", JVal.str t.Comment)] := by
  have hc : (',' : Char).isDigit = false := by decide
  have hdata : (renderTask t).data = lbrace ::
      (jsonMember "ID" (jsonNat t.ID) ++ ',' ::
      (jsonMember "CreatedAt" (jsonNat t.CreatedAt) ++ ',' ::
      (jsonMember "UpdatedAt" (jsonNat t.UpdatedAt) ++ ',' ::
      (jsonMember "DeletedAt" (jsonTime t.DeletedAt) ++ ',' ::
      (jsonMember "title" (jsonString t.Title) ++ ',' ::
      (jsonMember "assignee" (jsonString t.Assignee) ++ ',' ::
      (jsonMember "finished" (jsonBool t.Finished) ++ ',' ::
      (jsonMember "comment" (jsonString t.Comment) ++ [rbrace])))))))) := by
    simp [renderTask, List.append_assoc]
  have hlen : ∃ m, ((renderTask t).data.tail).length = m + 8 := by
    refine ⟨((renderTask t).data.tail).length - 8, ?_⟩
    rw [hdata]
    simp [jsonMember, jsonString, List.length_append]
    omega
  obtain ⟨m, hm⟩ := hlen
  have hne : (renderTask t).data.tail ≠ [rbrace] := by
    rw [hdata]
    simp [jsonMember, jsonString]
  unfold readObject
  rw [hdata] at hm hne ⊢
  simp only [List.tail_cons] at hm hne
  simp only [if_true, if_neg hne, hm]
  rw [readMembers_more _ _ _ _ _ _ (readValue_jsonNat _ _ _ hc),
    readMembers_more _ _ _ _ _ _ (readValue_jsonNat _ _ _ hc),
    readMembers_more _ _ _ _ _ _ (readValue_jsonNat _ _ _ hc),
    readMembers_more _ _ _ _ _ _ (readValue_jsonTime _ _ _ hc),
    readMembers_more _ _ _ _ _ _ (readValue_jsonString _ _),
    readMembers_more _ _ _ _ _ _ (readValue_jsonString _ _),
    readMembers_more _ _ _ _ _ _ (readValue_jsonBool _ _),
    readMembers_last _ _ _ _ _ (readValue_jsonString _ _)]
  rfl

/-- The reference codec reads every task back from its own rendering. -/
theorem refJSON_round_trip (t : Task) :
    refJSON.Marshal t = some (renderTask t) ∧ refJSON.Unmarshal (renderTask t) = some t := by
  refine ⟨rfl, ?_⟩
  have k1 : lowerKey "ID" = "id" := by decide
  have k2 : lowerKey "CreatedAt" = "createdat" := by decide
  have k3 : lowerKey "UpdatedAt" = "updatedat" := by decide
  have k4 : lowerKey "DeletedAt" = "deletedat" := by decide
  have k5 : lowerKey "title" = "title" := by decide
  have k6 : lowerKey "assignee" = "assignee" := by decide
  have k7 : lowerKey "finished" = "finished" := by decide
  have k8 : lowerKey "comment" = "comment" := by decide
  simp only [refJSON, decodePatch, readObject_renderTask]
  cases hd : t.DeletedAt <;>
    simp [List.foldlM, setMember, k1, k2, k3, k4, k5, k6, k7, k8, emptyPatch, applyPatch,
      zeroTask, ← hd]

/-- The stored timestamp is a whole microsecond at most half a microsecond
from the one written, and the one written itself when that is whole. -/
theorem toMicro_near (ns : Nat) :
    toMicro ns % 1000 = 0 ∧ ns ≤ toMicro ns + 500 ∧ toMicro ns ≤ ns + 500 ∧
      (ns % 1000 = 0 → toMicro ns = ns) := by
  unfold toMicro
  omega

/-! ## C1: read with the cache unavailable -/

/-- C1 (as stated, refuted): the store holds task 1 and the cache `Get` fails
with a connection error; the handler answers 500 and not the store outcome
(200 with task 1). -/
theorem C1_counterexample :
    pgStore.First storeA "1" = .ok taskA ∧
    (getTaskByIDHandler pgStore (miniRedis getDown) refJSON storeA Cache.empty "1").resp
      = ⟨StatusInternalServerError, .error "ошибка получения данных"⟩ ∧
    (getTaskByIDHandler pgStore (miniRedis getDown) refJSON storeA Cache.empty "1").resp
      ≠ ⟨StatusOK, .task taskA⟩ := by
  decide

/-- C1 (amended): when the cache `Get` fails with an error other than
`redis.Nil`, the handler issues no further call (the store is not consulted,
the cache is not populated), answers 500 with the fixed message, and leaves
store and cache as they were. -/
theorem C1_get_error_answers_500 (gormDB : GormDB σ) (redisClient : RedisClient κ)
    (json : JSONCodec) (s : σ) (k : κ) (taskID : String) (err : RedisError)
    (hget : redisClient.Get k ("task:" ++ taskID) = .error err) (hnil : err ≠ RedisError.Nil) :
    getTaskByIDHandler gormDB redisClient json s k taskID =
      ⟨⟨StatusInternalServerError, .error "ошибка получения данных"⟩, s, k,
        [.cacheGet ("task:" ++ taskID)]⟩ := by
  simp only [getTaskByIDHandler, hget, if_neg hnil]

/-- C1 witness: the amended statement at task 1 with `Get` unreachable. -/
theorem C1_get_error_answers_500_witness :
    (miniRedis getDown).Get Cache.empty ("task:" ++ "1") = .error dialError ∧
    dialError ≠ RedisError.Nil ∧
    getTaskByIDHandler pgStore (miniRedis getDown) refJSON storeA Cache.empty "1" =
      ⟨⟨StatusInternalServerError, .error "ошибка получения данных"⟩, storeA, Cache.empty,
        [.cacheGet ("task:" ++ "1")]⟩ :=
  ⟨rfl, by decide,
    C1_get_error_answers_500 pgStore (miniRedis getDown) refJSON storeA Cache.empty "1"
      dialError rfl (by decide)⟩

/-! ## C2: read of an id without live record -/

/-- C2 (as stated, refuted): task 1 is soft-deleted, so the store has no live
record for id 1; with the entry of task 1 still cached the handler answers
200, and with the entry absent it answers 500. Neither is 404. -/
theorem C2_counterexample :
    pgStore.First storeGone "1" = .error .ErrRecordNotFound ∧
    (getTaskByIDHandler pgStore (miniRedis noFaults) refJSON storeGone cacheA "1").resp
      = ⟨StatusOK, .task taskA⟩ ∧
    (getTaskByIDHandler pgStore (miniRedis noFaults) refJSON storeGone Cache.empty "1").resp
      = ⟨StatusInternalServerError, .error "record not found"⟩ := by
  decide

/-- C2 (amended): let the store have no live record for the id. On a cache
miss the handler does not answer 200: it reports the store error, issues no
cache write, and leaves cache and store as they were. When `Get` fails the
answer is 500. When the cache returns a payload the answer is decided by the
payload alone, the cache `Get` being the only call issued: 200 with the
decoded task, or 500 when it does not decode. -/
theorem C2_get_without_live_record (gormDB : GormDB σ) (redisClient : RedisClient κ)
    (json : JSONCodec) (s : σ) (k : κ) (taskID : String)
    (hdb : gormDB.First s taskID = .error DBError.ErrRecordNotFound) :
    (redisClient.Get k ("task:" ++ taskID) = .error RedisError.Nil →
      (getTaskByIDHandler gormDB redisClient json s k taskID).resp.status ≠ StatusOK ∧
      (getTaskByIDHandler gormDB redisClient json s k taskID).resp.body
        = .error "record not found" ∧
      (getTaskByIDHandler gormDB redisClient json s k taskID).cache = k ∧
      (getTaskByIDHandler gormDB redisClient json s k taskID).db = s ∧
      (∀ c ∈ (getTaskByIDHandler gormDB redisClient json s k taskID).calls,
        c.isCacheWrite = false)) ∧
    (∀ err, redisClient.Get k ("task:" ++ taskID) = .error err → err ≠ RedisError.Nil →
      (getTaskByIDHandler gormDB redisClient json s k taskID).resp.status
        = StatusInternalServerError) ∧
    (∀ payload, redisClient.Get k ("task:" ++ taskID) = .ok payload →
      ((getTaskByIDHandler gormDB redisClient json s k taskID).resp =
        match json.Unmarshal payload with
        | some task => ⟨StatusOK, .task task⟩
        | none => ⟨StatusInternalServerError, .error "ошибка декодирования данных"⟩) ∧
      (getTaskByIDHandler gormDB redisClient json s k taskID).calls
        = [.cacheGet ("task:" ++ taskID)]) := by
  refine ⟨?_, ?_, ?_⟩
  · intro hget
    simp [getTaskByIDHandler, hget, hdb, DBError.Error, Call.isCacheWrite, StatusOK,
      StatusInternalServerError]
  · intro err hget hnil
    simp [getTaskByIDHandler, hget, hnil]
  · intro payload hget
    simp only [getTaskByIDHandler, hget]
    cases json.Unmarshal payload <;> exact ⟨rfl, rfl⟩

/-- C2 witness: the amended statement at the soft-deleted task 1. -/
theorem C2_get_without_live_record_witness :
    pgStore.First storeGone "1" = .error DBError.ErrRecordNotFound ∧
    (getTaskByIDHandler pgStore (miniRedis noFaults) refJSON storeGone Cache.empty "1").resp.status
      ≠ StatusOK :=
  ⟨by decide,
    ((C2_get_without_live_record pgStore (miniRedis noFaults) refJSON storeGone Cache.empty "1"
      (by decide)).1 rfl).1⟩

/-! ## C3: update and the cache entry -/

/-- C3 (the code at the failing input): the store resolves `01` to task 1, the
update succeeds and its `Del` succeeds, on the key `task:01`; the entry under
`task:1` is still the one from before the update, and the next read of id 1
answers with the task as it was before the update, while the store holds the
updated one. -/
theorem C3_update_by_noncanonical_id_keeps_entry :
    pgStore.First storeA "01" = .ok taskA ∧
    putLeadingZero.resp = ⟨StatusOK, .task { taskA with UpdatedAt := 6000, Finished := true }⟩ ∧
    putLeadingZero.calls = [.dbFirst "01" true, .dbSave true, .cacheDel "task:01"] ∧
    ((miniRedis noFaults).Del cacheA "task:01").1 = none ∧
    putLeadingZero.cache ("task:" ++ Nat.repr taskA.ID) = some (renderTask taskA, 5 * Minute) ∧
    pgStore.First putLeadingZero.db "1"
      = .ok { taskA with UpdatedAt := 6000, Finished := true } ∧
    (getTaskByIDHandler pgStore (miniRedis noFaults) refJSON putLeadingZero.db
      putLeadingZero.cache "1").resp = ⟨StatusOK, .task taskA⟩ := by
  decide

/-! ## C4: where identifiers come from -/

/-- C4 (as stated, refuted): the Update of task 1 with a body naming id 2
succeeds, returns a record with id 2 and overwrites the row of task 2, while
the row of task 1 stays as it was; the Create with a body naming id 7
succeeds and returns id 7, which the sequence (at 1 before and after) did not
assign. -/
theorem C4_counterexample :
    pgStore.First storeAB "1" = .ok taskA ∧
    putForeignID.resp
      = ⟨StatusOK, .task { taskA with ID := 2, UpdatedAt := 7000, Title := "X" }⟩ ∧
    storeAB.row 2 = some taskB ∧
    putForeignID.db.row 2 = some { taskA with ID := 2, UpdatedAt := 7000, Title := "X" } ∧
    putForeignID.db.row 1 = some taskA ∧
    postWithID.resp = ⟨StatusCreated, .task
      { ID := 7, CreatedAt := 6000, UpdatedAt := 6000, DeletedAt := none,
        Title := "C", Assignee := "", Finished := false, Comment := "" }⟩ ∧
    storeA.seq = 1 ∧ postWithID.db.seq = 1 := by
  decide

/-- C4 (amended): on the reference store with primary keys from 1 up. An
Update that succeeds with a body carrying no id, or the id of the loaded
record, returns a record with the identifier of the record loaded for the
id, and the row under every other key is as before. A Create that succeeds
with a body carrying no id, or id 0, returns the next value of the sequence
as identifier, and the row under every other key is as before. -/
theorem C4_identifier_from_the_store (redisClient : RedisClient κ) (json : JSONCodec)
    (s : Store) (k : κ) (id : String) (p : TaskPatch) (hs : ∀ r ∈ s.rows, r.ID ≠ 0) :
    (∀ t, (∀ r, pgStore.First s id = .ok r → p.ID = none ∨ p.ID = some r.ID) →
      (putTaskByIDHandler pgStore redisClient s k id (some p)).resp = ⟨StatusOK, .task t⟩ →
      ∃ r, pgStore.First s id = .ok r ∧ t.ID = r.ID ∧
        ∀ m, m ≠ r.ID →
          (putTaskByIDHandler pgStore redisClient s k id (some p)).db.row m = s.row m) ∧
    (∀ t, (p.ID = none ∨ p.ID = some 0) →
      (postTaskHandler pgStore redisClient json s k (some p)).resp
        = ⟨StatusCreated, .task t⟩ →
      t.ID = s.seq + 1 ∧
        ∀ m, m ≠ t.ID →
          (postTaskHandler pgStore redisClient json s k (some p)).db.row m = s.row m) := by
  refine ⟨?_, ?_⟩
  · intro t hp hresp
    by_cases hid : id = ""
    · simp [putTaskByIDHandler, hid, StatusBadRequest, StatusOK] at hresp
    · cases hfirst : pgStore.First s id with
      | error e =>
        by_cases he : e = DBError.ErrRecordNotFound <;>
          simp [putTaskByIDHandler, hid, hfirst, he, StatusNotFound, StatusOK,
            StatusInternalServerError] at hresp
      | ok r =>
        obtain ⟨hup, n, hn, hlive⟩ := first_ok s id r hfirst
        obtain ⟨hmem, hrn, hrd⟩ := live_some s n r hlive
        have hr0 : r.ID ≠ 0 := hs r hmem
        have hID : (applyPatch p r).ID = r.ID := by
          rcases hp r hfirst with h | h <;> simp [applyPatch, h]
        have hliveID : (s.live (applyPatch p r).ID).isSome = true := by
          rw [hID, hrn, hlive]; rfl
        have hsave : pgStore.Save s (applyPatch p r) =
            (.ok { applyPatch p r with UpdatedAt := s.now },
              { s with
                rows := s.rows.map (fun x =>
                  if x.ID == (applyPatch p r).ID && x.DeletedAt.isNone
                  then Task.asStored { applyPatch p r with UpdatedAt := s.now } else x),
                now := s.now + 1 }) := by
          simp only [pgStore, Store.Save, hup, ↓reduceIte, hliveID]
          rw [if_neg (by rw [hID]; exact hr0)]
        refine ⟨r, rfl, ?_, ?_⟩
        · simp only [putTaskByIDHandler, if_neg hid, hfirst, BindJSON, Option.map, hsave] at hresp
          have := (Response.mk.inj hresp).2
          cases this
          exact hID
        · intro m hm
          simp only [putTaskByIDHandler, if_neg hid, hfirst, BindJSON, Option.map, hsave,
            Store.row]
          exact row_after_update s.rows _ _ m rfl (by rw [hID]; exact hm)
  · intro t hp hresp
    have hID : (applyPatch p zeroTask).ID = 0 := by
      rcases hp with h | h <;> simp [applyPatch, h, zeroTask]
    by_cases hup : s.up = true
    · by_cases hrow : (s.row (s.seq + 1)).isSome = true
      · simp [postTaskHandler, BindJSON, pgStore, Store.Create, hup, hID, hrow,
          StatusInternalServerError, StatusCreated] at hresp
      · have hcreate : pgStore.Create s (applyPatch p zeroTask) =
            (.ok { applyPatch p zeroTask with
                CreatedAt := if (applyPatch p zeroTask).CreatedAt = 0 then s.now
                  else (applyPatch p zeroTask).CreatedAt,
                UpdatedAt := if (applyPatch p zeroTask).UpdatedAt = 0 then s.now
                  else (applyPatch p zeroTask).UpdatedAt,
                ID := s.seq + 1 },
              { s with
                rows := s.rows ++ [Task.asStored { applyPatch p zeroTask with
                  CreatedAt := if (applyPatch p zeroTask).CreatedAt = 0 then s.now
                    else (applyPatch p zeroTask).CreatedAt,
                  UpdatedAt := if (applyPatch p zeroTask).UpdatedAt = 0 then s.now
                    else (applyPatch p zeroTask).UpdatedAt,
                  ID := s.seq + 1 }],
                seq := s.seq + 1, now := s.now + 1 }) := by
          simp only [pgStore, Store.Create, hup, ↓reduceIte, hID, hrow]
          rfl
        simp only [postTaskHandler, BindJSON, Option.map, hcreate] at hresp ⊢
        split at hresp
        · have := (Response.mk.inj hresp).2
          cases this
          refine ⟨rfl, ?_⟩
          intro m hm
          exact row_after_insert s.rows _ (s.seq + 1) m rfl hm
        · have := (Response.mk.inj hresp).2
          cases this
          refine ⟨rfl, ?_⟩
          intro m hm
          exact row_after_insert s.rows _ (s.seq + 1) m rfl hm
    · simp [postTaskHandler, BindJSON, pgStore, Store.Create, hup,
        StatusInternalServerError, StatusCreated] at hresp

/-- C4 witness: the Update of task 1 with the body that only sets `finished`,
and the Create from the same body, which gets id 2 from the sequence. -/
theorem C4_identifier_from_the_store_witness :
    (∀ r ∈ storeA.rows, r.ID ≠ 0) ∧
    (∃ r, pgStore.First storeA "1" = .ok r ∧
      ({ taskA with UpdatedAt := 6000, Finished := true } : Task).ID = r.ID ∧
      ∀ m, m ≠ r.ID →
        (putTaskByIDHandler pgStore (miniRedis noFaults) storeA Cache.empty "1"
          (some finishPatch)).db.row m = storeA.row m) ∧
    (postTaskHandler pgStore (miniRedis noFaults) refJSON storeA Cache.empty
        (some finishPatch)).resp = ⟨StatusCreated, .task
      { ID := 2, CreatedAt := 6000, UpdatedAt := 6000, DeletedAt := none,
        Title := "", Assignee := "", Finished := true, Comment := "" }⟩ ∧
    (2 = storeA.seq + 1 ∧
      ∀ m, m ≠ 2 →
        (postTaskHandler pgStore (miniRedis noFaults) refJSON storeA Cache.empty
          (some finishPatch)).db.row m = storeA.row m) :=
  ⟨by decide,
    (C4_identifier_from_the_store (miniRedis noFaults) refJSON storeA Cache.empty "1"
      finishPatch (by decide)).1 { taskA with UpdatedAt := 6000, Finished := true }
      (fun _ _ => Or.inl rfl) (by decide),
    by decide,
    (C4_identifier_from_the_store (miniRedis noFaults) refJSON storeA Cache.empty "1"
      finishPatch (by decide)).2
      { ID := 2, CreatedAt := 6000, UpdatedAt := 6000, DeletedAt := none,
        Title := "", Assignee := "", Finished := true, Comment := "" }
      (Or.inl rfl) (by decide)⟩

/-! ## C5: delete of a missing record -/

/-- C5 (as stated, refuted): the store has no record 7, and Delete of 7
answers 200; Delete of task 1 answers 200, after it the store has no live
record 1, and a second Delete of 1 answers 200 again. -/
theorem C5_counterexample :
    pgStore.First storeA "7" = .error .ErrRecordNotFound ∧
    (deleteTaskByIDHandler pgStore (miniRedis noFaults) storeA cacheA "7").resp.status
      = StatusOK ∧
    deleteOnce.resp.status = StatusOK ∧
    pgStore.First deleteOnce.db "1" = .error .ErrRecordNotFound ∧
    (deleteTaskByIDHandler pgStore (miniRedis noFaults) deleteOnce.db deleteOnce.cache
      "1").resp.status = StatusOK := by
  decide

/-- C5 (amended): the handler never answers NotFound, for any store. On the
reference store, when there is no live record for the id the soft delete
affects no row and reports no error, and the handler answers 200 with the
table unchanged; and after a Delete that answered 200 the store has no live
record for the id and a second Delete answers 200. -/
theorem C5_delete_answers_200_without_record (gormDB : GormDB σ) (redisClient : RedisClient κ)
    (s0 : σ) (s : Store) (k : κ) (id : String) :
    (deleteTaskByIDHandler gormDB redisClient s0 k id).resp.status ≠ StatusNotFound ∧
    (pgStore.First s id = .error DBError.ErrRecordNotFound →
      (deleteTaskByIDHandler pgStore redisClient s k id).resp.status = StatusOK ∧
      (deleteTaskByIDHandler pgStore redisClient s k id).db.rows = s.rows) ∧
    ((deleteTaskByIDHandler pgStore redisClient s k id).resp.status = StatusOK →
      pgStore.First (deleteTaskByIDHandler pgStore redisClient s k id).db id
        = .error DBError.ErrRecordNotFound ∧
      (deleteTaskByIDHandler pgStore redisClient
        (deleteTaskByIDHandler pgStore redisClient s k id).db
        (deleteTaskByIDHandler pgStore redisClient s k id).cache id).resp.status
        = StatusOK) := by
  refine ⟨?_, ?_, ?_⟩
  · unfold deleteTaskByIDHandler
    split
    · simp [StatusBadRequest, StatusNotFound]
    · split <;> simp [StatusInternalServerError, StatusOK, StatusNotFound]
  · intro h
    obtain ⟨hup, n, hn, hlive⟩ := first_not_found s id h
    have hid := atoi_ne_empty id n hn
    simp only [Store.live] at hlive
    simp only [deleteTaskByIDHandler, if_neg hid, pgStore, Store.Delete, hup, hn, ↓reduceIte,
      delete_without_live_row s.rows n (toMicro s.now) hlive]
    exact ⟨trivial, trivial⟩
  · intro h
    have hid : id ≠ "" := by
      rintro rfl
      simp [deleteTaskByIDHandler, StatusBadRequest, StatusOK] at h
    have hup : s.up = true := by
      by_contra hup
      simp [deleteTaskByIDHandler, hid, pgStore, Store.Delete, hup,
        StatusInternalServerError, StatusOK] at h
    obtain ⟨n, hn⟩ : ∃ n, atoi id = some n := by
      cases hn : atoi id with
      | some n => exact ⟨n, rfl⟩
      | none =>
        simp [deleteTaskByIDHandler, hid, pgStore, Store.Delete, hup, hn,
          StatusInternalServerError, StatusOK] at h
    simp only [deleteTaskByIDHandler, if_neg hid, pgStore, Store.Delete, Store.First,
      Store.live, hup, hn, ↓reduceIte, live_after_delete]
    exact ⟨trivial, trivial⟩

/-- C5 witness: Delete of the absent id 7 on the store holding task 1. -/
theorem C5_delete_answers_200_without_record_witness :
    pgStore.First storeA "7" = .error DBError.ErrRecordNotFound ∧
    (deleteTaskByIDHandler pgStore (miniRedis noFaults) storeA cacheA "7").resp.status
      = StatusOK ∧
    (deleteTaskByIDHandler pgStore (miniRedis noFaults) storeA cacheA "7").db.rows
      = storeA.rows :=
  ⟨by decide,
    (C5_delete_answers_200_without_record pgStore (miniRedis noFaults) storeA storeA cacheA
      "7").2.1 (by decide)⟩

/-! ## C6: cache failures and writes -/

/-- C6: the response and the resulting store of Create, Update and Delete do
not depend on the cache client at all, so they are the same when the cache
operation fails as when it succeeds; and a Create that the store accepted
answers 201 with the persisted task whatever `Set` does. -/
theorem C6_cache_failure_never_changes_a_write {κ₁ κ₂ : Type} (gormDB : GormDB σ)
    (rc1 : RedisClient κ₁) (rc2 : RedisClient κ₂) (json : JSONCodec)
    (s : σ) (k1 : κ₁) (k2 : κ₂) (id : String) (body : Option TaskPatch) :
    ((postTaskHandler gormDB rc1 json s k1 body).resp
        = (postTaskHandler gormDB rc2 json s k2 body).resp ∧
      (postTaskHandler gormDB rc1 json s k1 body).db
        = (postTaskHandler gormDB rc2 json s k2 body).db) ∧
    ((putTaskByIDHandler gormDB rc1 s k1 id body).resp
        = (putTaskByIDHandler gormDB rc2 s k2 id body).resp ∧
      (putTaskByIDHandler gormDB rc1 s k1 id body).db
        = (putTaskByIDHandler gormDB rc2 s k2 id body).db) ∧
    ((deleteTaskByIDHandler gormDB rc1 s k1 id).resp
        = (deleteTaskByIDHandler gormDB rc2 s k2 id).resp ∧
      (deleteTaskByIDHandler gormDB rc1 s k1 id).db
        = (deleteTaskByIDHandler gormDB rc2 s k2 id).db) ∧
    (∀ p task s1, gormDB.Create s (applyPatch p zeroTask) = (.ok task, s1) →
      (postTaskHandler gormDB rc1 json s k1 (some p)).resp = ⟨StatusCreated, .task task⟩ ∧
      (postTaskHandler gormDB rc1 json s k1 (some p)).db = s1) := by
  refine ⟨?_, ?_, ?_, ?_⟩
  · unfold postTaskHandler
    split
    · simp
    · split
      · simp
      · split <;> simp
  · unfold putTaskByIDHandler
    split
    · simp
    · split
      · split <;> simp
      · split
        · simp
        · split <;> simp
  · unfold deleteTaskByIDHandler
    split
    · simp
    · split <;> simp
  · intro p task s1 h
    simp only [postTaskHandler, BindJSON, Option.map, h]
    cases json.Marshal task <;> simp

/-- C6 witness: creating task 1 with the cache unreachable answers 201 with
the persisted task, as it does with the cache reachable. -/
theorem C6_cache_failure_never_changes_a_write_witness :
    pgStore.Create { rows := [], seq := 0, now := 5000, up := true }
        (applyPatch { emptyPatch with Title := some "A" } zeroTask)
      = (.ok taskA, { rows := [taskA], seq := 1, now := 5001, up := true }) ∧
    (postTaskHandler pgStore (miniRedis allDown) refJSON
        { rows := [], seq := 0, now := 5000, up := true } Cache.empty
        (some { emptyPatch with Title := some "A" })).resp = ⟨StatusCreated, .task taskA⟩ :=
  ⟨by decide,
    ((C6_cache_failure_never_changes_a_write pgStore (miniRedis allDown) (miniRedis noFaults)
      refJSON { rows := [], seq := 0, now := 5000, up := true } Cache.empty Cache.empty "1"
      (some { emptyPatch with Title := some "A" })).2.2.2
      { emptyPatch with Title := some "A" } taskA
      { rows := [taskA], seq := 1, now := 5001, up := true } (by decide)).1⟩

/-! ## C7: failed store writes and the cache -/

/-- C7: when the store call of a write returns an error (`Create` in Create,
`First` or `Save` in Update, `Delete` in Delete) the handler issues no cache
`Set` or `Del` and the cache is as before; and in every Update and Delete the
cache `Del` comes after a store write (`Save`, `Delete`) that returned
success. -/
theorem C7_failed_store_write_leaves_cache (gormDB : GormDB σ) (redisClient : RedisClient κ)
    (json : JSONCodec) (s : σ) (k : κ) (id : String) :
    (∀ p e, (gormDB.Create s (applyPatch p zeroTask)).1 = .error e →
      (postTaskHandler gormDB redisClient json s k (some p)).cache = k ∧
      ∀ c ∈ (postTaskHandler gormDB redisClient json s k (some p)).calls,
        c.isCacheWrite = false) ∧
    (∀ body e, gormDB.First s id = .error e →
      (putTaskByIDHandler gormDB redisClient s k id body).cache = k ∧
      ∀ c ∈ (putTaskByIDHandler gormDB redisClient s k id body).calls,
        c.isCacheWrite = false) ∧
    (∀ p task e, gormDB.First s id = .ok task →
      (gormDB.Save s (applyPatch p task)).1 = .error e →
      (putTaskByIDHandler gormDB redisClient s k id (some p)).cache = k ∧
      ∀ c ∈ (putTaskByIDHandler gormDB redisClient s k id (some p)).calls,
        c.isCacheWrite = false) ∧
    (∀ e, (gormDB.Delete s zeroTask id).1 = .error e →
      (deleteTaskByIDHandler gormDB redisClient s k id).cache = k ∧
      ∀ c ∈ (deleteTaskByIDHandler gormDB redisClient s k id).calls,
        c.isCacheWrite = false) ∧
    (∀ body front key back,
      (putTaskByIDHandler gormDB redisClient s k id body).calls
        = front ++ Call.cacheDel key :: back → Call.dbSave true ∈ front) ∧
    (∀ front key back,
      (deleteTaskByIDHandler gormDB redisClient s k id).calls
        = front ++ Call.cacheDel key :: back → Call.dbDelete id true ∈ front) := by
  refine ⟨?_, ?_, ?_, ?_, ?_, ?_⟩
  · intro p e h
    unfold postTaskHandler
    simp only [BindJSON, Option.map]
    split
    · simp [Call.isCacheWrite]
    · rename_i heq
      rw [heq] at h
      cases h
  · intro body e h
    unfold putTaskByIDHandler
    split
    · simp
    · simp only [h]
      split <;> simp [Call.isCacheWrite]
  · intro p task e h hsave
    unfold putTaskByIDHandler
    split
    · simp
    · simp only [h, BindJSON, Option.map]
      split
      · simp [Call.isCacheWrite]
      · rename_i heq
        rw [heq] at hsave
        cases hsave
  · intro e h
    unfold deleteTaskByIDHandler
    split
    · simp
    · split
      · simp [Call.isCacheWrite]
      · rename_i heq
        rw [heq] at h
        cases h
  · intro body front key back
    unfold putTaskByIDHandler
    split
    · simp
    · split
      · split <;> (rcases front with _ | ⟨c1, _ | ⟨c2, front⟩⟩ <;> simp)
      · split
        · rcases front with _ | ⟨c1, _ | ⟨c2, front⟩⟩ <;> simp
        · split
          · rcases front with _ | ⟨c1, _ | ⟨c2, _ | ⟨c3, front⟩⟩⟩ <;> simp
          · rcases front with _ | ⟨c1, _ | ⟨c2, _ | ⟨c3, front⟩⟩⟩ <;> simp
            intro _ h2 _ _
            exact Or.inr h2
  · intro front key back
    unfold deleteTaskByIDHandler
    split
    · simp
    · split
      · rcases front with _ | ⟨c1, _ | ⟨c2, front⟩⟩ <;> simp
      · rcases front with _ | ⟨c1, _ | ⟨c2, front⟩⟩ <;> simp
        intro h1 _ _
        exact h1

/-- C7 witness: with the store connection down, Create, Update and Delete of
task 1 leave the cached entry of task 1 in place. -/
theorem C7_failed_store_write_leaves_cache_witness :
    (pgStore.Create storeDown (applyPatch finishPatch zeroTask)).1 = .error connRefused ∧
    pgStore.First storeDown "1" = .error connRefused ∧
    (pgStore.Delete storeDown zeroTask "1").1 = .error connRefused ∧
    (postTaskHandler pgStore (miniRedis noFaults) refJSON storeDown cacheA
      (some finishPatch)).cache = cacheA ∧
    (putTaskByIDHandler pgStore (miniRedis noFaults) storeDown cacheA "1"
      (some finishPatch)).cache = cacheA ∧
    (deleteTaskByIDHandler pgStore (miniRedis noFaults) storeDown cacheA "1").cache = cacheA :=
  ⟨by decide, by decide, by decide,
    ((C7_failed_store_write_leaves_cache pgStore (miniRedis noFaults) refJSON storeDown cacheA
      "1").1 finishPatch connRefused (by decide)).1,
    ((C7_failed_store_write_leaves_cache pgStore (miniRedis noFaults) refJSON storeDown cacheA
      "1").2.1 (some finishPatch) connRefused (by decide)).1,
    ((C7_failed_store_write_leaves_cache pgStore (miniRedis noFaults) refJSON storeDown cacheA
      "1").2.2.2.1 connRefused (by decide)).1⟩

/-! ## C8: create, then read -/

/-- C8 (as stated, refuted): Create from the body with title "A" answers 201
with `E` stamped 5000123 ns; its `Set` failed; the Read of `1` misses the
cache, is served by the store and answers 200 with the row as stored, stamped
5000000 ns, which is not `E`. And a Create whose body sets `DeletedAt`
answers 201 with id 1, after which the Read served by the store answers 500
because the store has no live record. -/
theorem C8_counterexample :
    postOffMicro.resp = ⟨StatusCreated,
      .task { taskA with CreatedAt := 5000123, UpdatedAt := 5000123 }⟩ ∧
    (getTaskByIDHandler pgStore (miniRedis noFaults) refJSON postOffMicro.db postOffMicro.cache
      (Nat.repr 1)).resp = ⟨StatusOK,
        .task { taskA with CreatedAt := 5000000, UpdatedAt := 5000000 }⟩ ∧
    (getTaskByIDHandler pgStore (miniRedis noFaults) refJSON postOffMicro.db postOffMicro.cache
      (Nat.repr 1)).resp ≠ ⟨StatusOK,
        .task { taskA with CreatedAt := 5000123, UpdatedAt := 5000123 }⟩ ∧
    postDeleted.resp = ⟨StatusCreated, .task { taskA with DeletedAt := some 3000 }⟩ ∧
    (getTaskByIDHandler pgStore (miniRedis noFaults) refJSON postDeleted.db postDeleted.cache
      (Nat.repr 1)).calls = [.cacheGet "task:1", .dbFirst "1" false] ∧
    (getTaskByIDHandler pgStore (miniRedis noFaults) refJSON postDeleted.db postDeleted.cache
      (Nat.repr 1)).resp = ⟨StatusInternalServerError, .error "record not found"⟩ := by
  decide

/-- C8 (amended): let Create answer 201 with `E`. When its `Set` went through,
the Read of the decimal id of `E` that reaches the cache answers 200 with
`E`: the cached JSON deserializes to `E`. When the Read misses the cache and
so is served by the store, and `E` is not deleted, it answers 200 with the
row as stored: `E` in id, title, assignee, finished and comment, not deleted,
each timestamp a whole microsecond at most half a microsecond from that of
`E`; this is `E` itself when the timestamps of `E` are whole microseconds. -/
theorem C8_create_then_read (f g : Faults) (s : Store) (k : Cache)
    (body : Option TaskPatch) (E : Task)
    (hcreate : (postTaskHandler pgStore (miniRedis f) refJSON s k body).resp
      = ⟨StatusCreated, .task E⟩) :
    (f.set = false → g.get = false →
      (getTaskByIDHandler pgStore (miniRedis g) refJSON
        (postTaskHandler pgStore (miniRedis f) refJSON s k body).db
        (postTaskHandler pgStore (miniRedis f) refJSON s k body).cache
        (Nat.repr E.ID)).resp = ⟨StatusOK, .task E⟩) ∧
    (E.DeletedAt = none →
      (miniRedis g).Get (postTaskHandler pgStore (miniRedis f) refJSON s k body).cache
        ("task:" ++ Nat.repr E.ID) = .error RedisError.Nil →
      ∃ R, (getTaskByIDHandler pgStore (miniRedis g) refJSON
          (postTaskHandler pgStore (miniRedis f) refJSON s k body).db
          (postTaskHandler pgStore (miniRedis f) refJSON s k body).cache
          (Nat.repr E.ID)).resp = ⟨StatusOK, .task R⟩ ∧
        R.ID = E.ID ∧ R.Title = E.Title ∧ R.Assignee = E.Assignee ∧
        R.Finished = E.Finished ∧ R.Comment = E.Comment ∧ R.DeletedAt = none ∧
        (R.CreatedAt % 1000 = 0 ∧ E.CreatedAt ≤ R.CreatedAt + 500 ∧
          R.CreatedAt ≤ E.CreatedAt + 500) ∧
        (R.UpdatedAt % 1000 = 0 ∧ E.UpdatedAt ≤ R.UpdatedAt + 500 ∧
          R.UpdatedAt ≤ E.UpdatedAt + 500) ∧
        (E.CreatedAt % 1000 = 0 → E.UpdatedAt % 1000 = 0 → R = E)) := by
  obtain ⟨p, s1, _, hc, hdb, hcache⟩ := post_created refJSON f s k body E hcreate
  refine ⟨?_, ?_⟩
  · intro hset hget
    have hk := hcache (renderTask E) (refJSON_round_trip E).1 hset
    have hG := miniRedis_get_hit g _ _ (renderTask E) (5 * Minute) hget hk
    simp only [getTaskByIDHandler, hG, (refJSON_round_trip E).2]
  · intro hlive hmiss
    obtain ⟨hup, _, _⟩ := create_ok s s1 _ E hc
    have hF : pgStore.First (postTaskHandler pgStore (miniRedis f) refJSON s k body).db
        (Nat.repr E.ID) = .ok E.asStored := by
      rw [hdb]
      simp only [pgStore, Store.First, hup, ↓reduceIte, atoi_repr,
        live_after_create s s1 _ E hc hlive]
    have hresp : (getTaskByIDHandler pgStore (miniRedis g) refJSON
        (postTaskHandler pgStore (miniRedis f) refJSON s k body).db
        (postTaskHandler pgStore (miniRedis f) refJSON s k body).cache
        (Nat.repr E.ID)).resp = ⟨StatusOK, .task E.asStored⟩ := by
      simp only [getTaskByIDHandler, hmiss, hF, ↓reduceIte]
      split <;> rfl
    have hC := toMicro_near E.CreatedAt
    have hU := toMicro_near E.UpdatedAt
    refine ⟨E.asStored, hresp, rfl, rfl, rfl, rfl, rfl, ?_, ⟨hC.1, hC.2.1, hC.2.2.1⟩,
      ⟨hU.1, hU.2.1, hU.2.2.1⟩, ?_⟩
    · simp [Task.asStored, hlive]
    · intro h1 h2
      cases E with
      | mk m title assignee finished comment =>
        cases m with
        | mk id created updated deleted =>
          simp only at hlive h1 h2
          simp [Task.asStored, hlive, hC.2.2.2 h1, hU.2.2.2 h2]

/-- C8 witness: task 1 created with title "A" at 5000 ns and read back, from
the cache when `Set` went through. -/
theorem C8_create_then_read_witness :
    (postTaskHandler pgStore (miniRedis noFaults) refJSON
        { rows := [], seq := 0, now := 5000, up := true } Cache.empty
        (some { emptyPatch with Title := some "A" })).resp = ⟨StatusCreated, .task taskA⟩ ∧
    (getTaskByIDHandler pgStore (miniRedis noFaults) refJSON
        (postTaskHandler pgStore (miniRedis noFaults) refJSON
          { rows := [], seq := 0, now := 5000, up := true } Cache.empty
          (some { emptyPatch with Title := some "A" })).db
        (postTaskHandler pgStore (miniRedis noFaults) refJSON
          { rows := [], seq := 0, now := 5000, up := true } Cache.empty
          (some { emptyPatch with Title := some "A" })).cache
        (Nat.repr taskA.ID)).resp = ⟨StatusOK, .task taskA⟩ :=
  ⟨by decide,
    (C8_create_then_read noFaults noFaults
      { rows := [], seq := 0, now := 5000, up := true } Cache.empty
      (some { emptyPatch with Title := some "A" }) taskA (by decide)).1 rfl rfl⟩

/-! ## C9: corrupt cache payload -/

/-- C9: a cache entry that does not deserialize makes the handler answer 500
with the decoding message; the only call issued is the cache `Get` (the store
is not consulted, nothing is written), and cache and store are as before,
for every store. -/
theorem C9_corrupt_payload_is_surfaced (gormDB : GormDB σ) (redisClient : RedisClient κ)
    (json : JSONCodec) (s : σ) (k : κ) (taskID payload : String)
    (hget : redisClient.Get k ("task:" ++ taskID) = .ok payload)
    (hbad : json.Unmarshal payload = none) :
    getTaskByIDHandler gormDB redisClient json s k taskID =
      ⟨⟨StatusInternalServerError, .error "ошибка декодирования данных"⟩, s, k,
        [.cacheGet ("task:" ++ taskID)]⟩ := by
  simp only [getTaskByIDHandler, hget, hbad]

/-- C9 witness: a payload that is not JSON under `task:1`, task 1 live in the
store. -/
theorem C9_corrupt_payload_is_surfaced_witness :
    (miniRedis noFaults).Get cacheBad ("task:" ++ "1") = .ok "garbage" ∧
    refJSON.Unmarshal "garbage" = none ∧
    getTaskByIDHandler pgStore (miniRedis noFaults) refJSON storeA cacheBad "1" =
      ⟨⟨StatusInternalServerError, .error "ошибка декодирования данных"⟩, storeA, cacheBad,
        [.cacheGet ("task:" ++ "1")]⟩ :=
  ⟨by decide, by decide,
    C9_corrupt_payload_is_surfaced pgStore (miniRedis noFaults) refJSON storeA cacheBad "1"
      "garbage" (by decide) (by decide)⟩

/-! ## C10: the cache after a read that misses -/

/-- C10: let the cache `Get` report a miss. If the store returns the task, the
answer is 200 with that task whether or not `Set` goes through, the store is
as before, and after a `Set` that went through the cache holds the JSON of
exactly that task under `task:` followed by its decimal id with a TTL of five
minutes (300 seconds, in nanoseconds) and is unchanged at every other key.
If the store lookup fails, the cache and the store are as before. -/
theorem C10_cache_after_miss (gormDB : GormDB σ) (json : JSONCodec) (f : Faults)
    (s : σ) (k : Cache) (taskID : String)
    (hmiss : (miniRedis f).Get k ("task:" ++ taskID) = .error RedisError.Nil) :
    (∀ task, gormDB.First s taskID = .ok task →
      (getTaskByIDHandler gormDB (miniRedis f) json s k taskID).resp = ⟨StatusOK, .task task⟩ ∧
      (getTaskByIDHandler gormDB (miniRedis f) json s k taskID).db = s ∧
      (∀ payload, json.Marshal task = some payload → f.set = false →
        (getTaskByIDHandler gormDB (miniRedis f) json s k taskID).cache =
          fun q => if q = "task:" ++ Nat.repr task.ID then some (payload, 5 * Minute)
            else k q)) ∧
    (∀ e, gormDB.First s taskID = .error e →
      (getTaskByIDHandler gormDB (miniRedis f) json s k taskID).cache = k ∧
      (getTaskByIDHandler gormDB (miniRedis f) json s k taskID).db = s) ∧
    5 * Minute = 300 * 1000000000 := by
  refine ⟨?_, ?_, by decide⟩
  · intro task hdb
    refine ⟨?_, ?_, ?_⟩
    · simp only [getTaskByIDHandler, hmiss, hdb]
      cases json.Marshal task <;> simp
    · simp only [getTaskByIDHandler, hmiss, hdb]
      cases json.Marshal task <;> simp
    · intro payload hm hset
      simp only [getTaskByIDHandler, hmiss, hdb, hm]
      simp [miniRedis, hset]
  · intro e hdb
    simp [getTaskByIDHandler, hmiss, hdb]

/-- C10 witness: task 1 read through an empty cache. -/
theorem C10_cache_after_miss_witness :
    (miniRedis noFaults).Get Cache.empty ("task:" ++ "1") = .error RedisError.Nil ∧
    pgStore.First storeA "1" = .ok taskA ∧
    (getTaskByIDHandler pgStore (miniRedis noFaults) refJSON storeA Cache.empty "1").resp
      = ⟨StatusOK, .task taskA⟩ ∧
    (getTaskByIDHandler pgStore (miniRedis noFaults) refJSON storeA Cache.empty "1").cache =
      (fun q => if q = "task:" ++ Nat.repr taskA.ID then some (renderTask taskA, 5 * Minute)
        else Cache.empty q) :=
  ⟨by decide, by decide,
    ((C10_cache_after_miss pgStore refJSON noFaults storeA Cache.empty "1" (by decide)).1
      taskA (by decide)).1,
    ((C10_cache_after_miss pgStore refJSON noFaults storeA Cache.empty "1" (by decide)).1
      taskA (by decide)).2.2 (renderTask taskA) rfl rfl⟩

end TasksSystem
